import Mathlib

/-!
Verification of the FACTRADE task-orchestrator core (task queue, retry
engine, escalation manager) against its natural-language specification.

The TypeScript sources are shallowly embedded as pure Lean functions:

* `EscalationManager.ts` becomes the `EscState` structure and the functions
  `checkEscalation` / `escalate` (state passed explicitly);
* `RetryEngine.ts` becomes the circuit-breaker map operations and
  `executeWithRetry` / `executeStrategy` / `calculateDelay`, with the wrapped
  operation represented by an outcome oracle `ops : Nat -> Option String`
  (`none` = the operation resolves, `some msg` = it throws `msg`) consumed at
  an explicit index, and wall-clock reads (`Date.now()`) supplied as `now`
  arguments.  JavaScript numbers that can be fractional (delays, jitter)
  are modelled as rationals; counters and timestamps as naturals; fields a
  caller may set to arbitrary numbers (`priority`, `maxAttempts`) as integers;
* `TaskQueue.ts` becomes `addTask` / `processTask` / `processQueue` over a
  `SystemState` record.  `generateTaskId` (clock + random suffix in the
  source) is modelled by a fresh counter; the ghost fields `executions`
  and `arrivals` instrument, respectively, how many tasks a run has driven
  through `processTask` and the order in which tasks were pushed onto the
  pending list.  The inter-attempt sleeps of the retry engine only affect
  timing, which the embedding receives through the explicit `now` arguments,
  so the sleep itself is not modelled.
-/

namespace Factrade

/-! ## Escalation manager (`EscalationManager.ts`) -/

/-- `EscalationLevel` from `EscalationManager.ts`. -/
inductive EscalationLevel where
  | INFO
  | WARNING
  | ERROR
  | CRITICAL
  | HUMAN_INTERVENTION
deriving DecidableEq

/-- Position of a level on the severity ladder
(Info < Warning < Error < Critical < HumanIntervention). -/
def EscalationLevel.toNat : EscalationLevel → Nat
  | .INFO => 0
  | .WARNING => 1
  | .ERROR => 2
  | .CRITICAL => 3
  | .HUMAN_INTERVENTION => 4

/-- An `EscalationEvent`.  The opaque `metadata` payload (never interpreted
by the core) is not modelled; `id` is the value of a fresh-event counter
standing in for `generateEventId`. -/
structure EscalationEvent where
  id : Nat
  taskId : Nat
  level : EscalationLevel
  message : String
  timestamp : Nat
deriving DecidableEq

/-- Replace-or-append update of an association list, the behaviour of
`Map.set` on the failure-count map. -/
def setCount (l : List (Nat × Nat)) (key v : Nat) : List (Nat × Nat) :=
  match l with
  | [] => [(key, v)]
  | (k, w) :: rest =>
      if k = key then (k, v) :: rest else (k, w) :: setCount rest key v

/-- State owned by `EscalationManager`: the threshold field (5 in the
source), the append-only event history, the per-task failure-count map, and
a fresh-event counter standing in for `generateEventId`. -/
structure EscState where
  escalationThreshold : Nat := 5
  escalationHistory : List EscalationEvent := []
  taskFailureCounts : List (Nat × Nat) := []
  nextEventId : Nat := 0
deriving DecidableEq

/-- The classification cascade of `checkEscalation` (lines 66-76).  The
source compares `failures >= this.escalationThreshold / 2` with JavaScript
number division; for the integer operands involved that comparison is
exactly `threshold ≤ 2 * failures`, which is the (kernel-evaluable) form
used here — `classifyLevelQ_eq` proves it equal to the literal
rational-division form `classifyLevelQ`. -/
def classifyLevel (threshold failures : Nat) : EscalationLevel :=
  if threshold * 2 ≤ failures then .HUMAN_INTERVENTION
  else if threshold ≤ failures then .CRITICAL
  else if threshold ≤ 2 * failures then .ERROR
  else if 0 < failures then .WARNING
  else .INFO

/-- The classification cascade with the half-threshold guard written
exactly as in the source, `failures >= threshold / 2` over the rationals. -/
def classifyLevelQ (threshold failures : Nat) : EscalationLevel :=
  if threshold * 2 ≤ failures then .HUMAN_INTERVENTION
  else if threshold ≤ failures then .CRITICAL
  else if (threshold : ℚ) / 2 ≤ (failures : ℚ) then .ERROR
  else if 0 < failures then .WARNING
  else .INFO

/-- `EscalationManager.checkEscalation`: records the given failure count in
`taskFailureCounts` (line 64) and returns the classification cascade's
level. -/
def checkEscalation (st : EscState) (taskId failures : Nat) :
    EscalationLevel × EscState :=
  (classifyLevel st.escalationThreshold failures,
   { st with taskFailureCounts := setCount st.taskFailureCounts taskId failures })

/-- `EscalationManager.escalate`: appends an event to the history.  The
level-specific handlers (`handleInfo` … `handleHumanIntervention`) only log
and mutate no state, so they contribute nothing to the embedding. -/
def escalate (st : EscState) (taskId : Nat) (level : EscalationLevel)
    (message : String) (now : Nat) : EscState :=
  { st with
    escalationHistory := st.escalationHistory ++
      [{ id := st.nextEventId, taskId := taskId, level := level,
         message := message, timestamp := now }]
    nextEventId := st.nextEventId + 1 }

/-- `EscalationManager.getEscalationHistory`: `slice(-limit)`, i.e. the most
recent `limit` events; JavaScript's `slice(-0)` returns the whole array. -/
def getEscalationHistory (st : EscState) (limit : Nat) : List EscalationEvent :=
  if limit = 0 then st.escalationHistory
  else st.escalationHistory.drop (st.escalationHistory.length - limit)

/-! ## Retry engine (`RetryEngine.ts`) -/

/-- `RetryStrategy` from `RetryEngine.ts`. -/
inductive RetryStrategy where
  | EXPONENTIAL_BACKOFF
  | LINEAR_BACKOFF
  | IMMEDIATE_RETRY
  | CIRCUIT_BREAKER
  | ALTERNATIVE_APPROACH
deriving DecidableEq

/-- `RetryConfig`; the delay fields are JavaScript numbers, modelled as
rationals. -/
structure RetryConfig where
  maxAttempts : Nat
  baseDelay : ℚ
  maxDelay : ℚ
  jitterFactor : ℚ
deriving DecidableEq

/-- `RetryEngine.defaultConfig`. -/
def defaultConfig : RetryConfig :=
  { maxAttempts := 3, baseDelay := 1000, maxDelay := 30000, jitterFactor := 1/5 }

/-- `RetryEngine.calculateDelay`.  `Math.random()` is supplied as the
parameter `rand`. -/
def calculateDelay (strategy : RetryStrategy) (attempt : Nat)
    (config : RetryConfig) (rand : ℚ) : ℚ :=
  let delay : ℚ :=
    match strategy with
    | .EXPONENTIAL_BACKOFF => min (config.baseDelay * 2 ^ attempt) config.maxDelay
    | .LINEAR_BACKOFF => min (config.baseDelay * ((attempt : ℚ) + 1)) config.maxDelay
    | .IMMEDIATE_RETRY => 0
    | _ => config.baseDelay
  let jitter := delay * config.jitterFactor * (rand - 1/2)
  max 0 (delay + jitter)

/-- A circuit-breaker record: `{ failures, lastFailure }`. -/
structure Breaker where
  failures : Nat
  lastFailure : Nat
deriving DecidableEq

/-- `circuitBreakerThreshold` (line 34). -/
def circuitBreakerThreshold : Nat := 5

/-- `circuitBreakerTimeout` (line 35), in milliseconds. -/
def circuitBreakerTimeout : Nat := 60000

/-- `Map.get` on the breaker map. -/
def getBreaker (cbs : List (Nat × Breaker)) (taskId : Nat) : Option Breaker :=
  match cbs with
  | [] => none
  | (k, b) :: rest => if k = taskId then some b else getBreaker rest taskId

/-- `Map.set` on the breaker map. -/
def setBreaker (cbs : List (Nat × Breaker)) (taskId : Nat) (b : Breaker) :
    List (Nat × Breaker) :=
  match cbs with
  | [] => [(taskId, b)]
  | (k, w) :: rest =>
      if k = taskId then (k, b) :: rest else (k, w) :: setBreaker rest taskId b

/-- `Map.delete` on the breaker map. -/
def deleteBreaker (cbs : List (Nat × Breaker)) (taskId : Nat) :
    List (Nat × Breaker) :=
  cbs.filter (fun p => p.1 ≠ taskId)

/-- `RetryEngine.resetCircuitBreaker`. -/
def resetCircuitBreaker (cbs : List (Nat × Breaker)) (taskId : Nat) :
    List (Nat × Breaker) :=
  deleteBreaker cbs taskId

/-- `RetryEngine.isCircuitBreakerOpen` : reads `Date.now()` (supplied as
`now`) and deletes the record once the cool-down has elapsed, so it returns
the updated breaker map alongside the verdict.  `now - lastFailure` is
truncated subtraction; when `now < lastFailure` JavaScript would compare a
negative number against the timeout, which likewise evaluates as "still in
the window". -/
def isCircuitBreakerOpen (cbs : List (Nat × Breaker)) (taskId now : Nat) :
    Bool × List (Nat × Breaker) :=
  match getBreaker cbs taskId with
  | none => (false, cbs)
  | some b =>
      if circuitBreakerThreshold ≤ b.failures then
        if now - b.lastFailure < circuitBreakerTimeout then (true, cbs)
        else (false, deleteBreaker cbs taskId)
      else (false, cbs)

/-- `RetryEngine.recordFailure`. -/
def recordFailure (cbs : List (Nat × Breaker)) (taskId now : Nat) :
    List (Nat × Breaker) :=
  let b := (getBreaker cbs taskId).getD { failures := 0, lastFailure := 0 }
  setBreaker cbs taskId { failures := b.failures + 1, lastFailure := now }

/-- The result record of `executeStrategy`. -/
structure StratResult where
  success : Bool
  attempts : Nat
  strategy : RetryStrategy
  error : Option String
deriving DecidableEq

/-- The attempt loop of `executeStrategy` (lines 88-119), by recursion on
the remaining iteration count.  `k` is the index into the operation-outcome
oracle `ops`; a breaker-open short circuit returns before consulting the
oracle, which is the source's "the operation is not invoked". -/
def executeStrategyGo (taskId : Nat) (ops : Nat → Option String)
    (strategy : RetryStrategy) (now : Nat) :
    Nat → Nat → Nat → Option String → List (Nat × Breaker) →
    StratResult × List (Nat × Breaker) × Nat
  | 0, attempts, k, lastError, cbs =>
      ({ success := false, attempts := attempts, strategy := strategy,
         error := lastError }, cbs, k)
  | remaining + 1, attempts, k, _lastError, cbs =>
      let chk := isCircuitBreakerOpen cbs taskId now
      if chk.1 then
        ({ success := false, attempts := attempts + 1, strategy := strategy,
           error := some "Circuit breaker open" }, chk.2, k)
      else
        match ops k with
        | none =>
            ({ success := true, attempts := attempts + 1, strategy := strategy,
               error := none }, chk.2, k + 1)
        | some msg =>
            executeStrategyGo taskId ops strategy now remaining (attempts + 1)
              (k + 1) (some msg) chk.2

/-- `RetryEngine.executeStrategy`. -/
def executeStrategy (cbs : List (Nat × Breaker)) (taskId : Nat)
    (ops : Nat → Option String) (k : Nat) (strategy : RetryStrategy)
    (config : RetryConfig) (now : Nat) :
    StratResult × List (Nat × Breaker) × Nat :=
  executeStrategyGo taskId ops strategy now config.maxAttempts 0 k none cbs

/-- The result record of `executeWithRetry`; `strategy` is optional because
the source reads `strategies[strategies.length - 1]`, which is `undefined`
for an empty list. -/
structure RetryResult where
  success : Bool
  attempts : Nat
  strategy : Option RetryStrategy
  error : Option String
deriving DecidableEq

/-- The strategy loop of `executeWithRetry` (lines 46-67): returns the
successful per-strategy result if any strategy succeeds (clearing the
breaker at that point), otherwise `none` together with the final breaker
map, oracle index, and last observed error. -/
def executeWithRetryGo (taskId : Nat) (ops : Nat → Option String)
    (config : RetryConfig) (now : Nat) :
    List RetryStrategy → List (Nat × Breaker) → Nat → Option String →
    Option StratResult × List (Nat × Breaker) × Nat × Option String
  | [], cbs, k, lastError => (none, cbs, k, lastError)
  | s :: rest, cbs, k, _lastError =>
      let r := executeStrategy cbs taskId ops k s config now
      if r.1.success then
        (some r.1, resetCircuitBreaker r.2.1 taskId, r.2.2, r.1.error)
      else
        executeWithRetryGo taskId ops config now rest r.2.1 r.2.2 r.1.error

/-- `RetryEngine.executeWithRetry`. -/
def executeWithRetry (cbs : List (Nat × Breaker)) (taskId : Nat)
    (ops : Nat → Option String) (k : Nat) (strategies : List RetryStrategy)
    (config : RetryConfig) (now : Nat) :
    RetryResult × List (Nat × Breaker) × Nat :=
  let g := executeWithRetryGo taskId ops config now strategies cbs k none
  match g.1 with
  | some r =>
      ({ success := true, attempts := r.attempts, strategy := some r.strategy,
         error := r.error }, g.2.1, g.2.2.1)
  | none =>
      ({ success := false, attempts := config.maxAttempts * strategies.length,
         strategy := strategies.getLast?, error := g.2.2.2 },
       recordFailure g.2.1 taskId now, g.2.2.1)

/-- `RetryEngine.getMultiApproachStrategies`. -/
def getMultiApproachStrategies (errorType : String) : List RetryStrategy :=
  if errorType = "NETWORK_ERROR" then
    [.EXPONENTIAL_BACKOFF, .LINEAR_BACKOFF, .CIRCUIT_BREAKER]
  else if errorType = "RATE_LIMIT" then
    [.LINEAR_BACKOFF, .EXPONENTIAL_BACKOFF]
  else if errorType = "TEMPORARY_FAILURE" then
    [.IMMEDIATE_RETRY, .EXPONENTIAL_BACKOFF]
  else
    [.EXPONENTIAL_BACKOFF, .ALTERNATIVE_APPROACH]

/-! ## Task queue (`TaskQueue.ts`) -/

/-- `TaskStatus` from `TaskQueue.ts`. -/
inductive TaskStatus where
  | PENDING
  | RUNNING
  | COMPLETED
  | FAILED
  | ESCALATED
deriving DecidableEq

/-- A status is terminal when it is `COMPLETED`, `FAILED` or `ESCALATED`. -/
def TaskStatus.terminal : TaskStatus → Bool
  | .COMPLETED => true
  | .FAILED => true
  | .ESCALATED => true
  | _ => false

/-- A `Task` record.  `id` is the value of the fresh-task counter standing
in for `generateTaskId`; timestamps are milliseconds; `priority` and
`maxAttempts` are caller-supplied JavaScript numbers, modelled as integers. -/
structure Task where
  id : Nat
  type : String
  status : TaskStatus
  priority : Int
  attempts : Nat
  maxAttempts : Int
  createdAt : Nat
  updatedAt : Nat
  error : Option String := none
  metadata : List (String × String) := []
deriving DecidableEq

/-- The `Partial<Task>` argument of `addTask`: each field either absent or
a caller-supplied value. -/
structure TaskInput where
  type : Option String := none
  priority : Option Int := none
  maxAttempts : Option Int := none
  metadata : Option (List (String × String)) := none
deriving DecidableEq

/-- JavaScript `v || d` for an optional string field: an absent value and
the falsy empty string both yield the default. -/
def orDefaultStr (v : Option String) (d : String) : String :=
  match v with
  | none => d
  | some s => if s = "" then d else s

/-- JavaScript `v || d` for an optional numeric field: an absent value and
the falsy `0` both yield the default. -/
def orDefaultInt (v : Option Int) (d : Int) : Int :=
  match v with
  | none => d
  | some n => if n = 0 then d else n

/-- Insert a task into a descending-priority list, before the first element
whose priority does not exceed it.  `sortQueue` in the source is
`queue.sort((a, b) => b.priority - a.priority)`; ECMAScript `Array.sort` is
a stable sort, and this insertion places the task after every
strictly-higher-priority element and before equal-priority ones that came
later in the pre-sort order, which is the defining property of a stable
descending sort. -/
def insertDesc (t : Task) : List Task → List Task
  | [] => [t]
  | u :: us =>
      if u.priority ≤ t.priority then t :: u :: us else u :: insertDesc t us

/-- `TaskQueue.sortQueue`: stable sort by descending priority. -/
def sortQueue : List Task → List Task
  | [] => []
  | t :: ts => insertDesc t (sortQueue ts)

/-- Association-list read of the task map (`Map.get`). -/
def lookupTask (l : List (Nat × Task)) (taskId : Nat) : Option Task :=
  match l with
  | [] => none
  | (k, t) :: rest => if k = taskId then some t else lookupTask rest taskId

/-- Replace-or-append update of the task map (`Map.set`). -/
def setTask (l : List (Nat × Task)) (taskId : Nat) (t : Task) :
    List (Nat × Task) :=
  match l with
  | [] => [(taskId, t)]
  | (k, w) :: rest =>
      if k = taskId then (k, t) :: rest else (k, w) :: setTask rest taskId t

/-- The whole orchestrator state: the task map, pending queue and
`processing` flag of `TaskQueue`, the fresh-id counter standing in for
`generateTaskId`, the escalation-manager and retry-engine states, and the
oracle index `opIndex` for the operation outcomes.  `executions` (number of
`processTask` runs) and `arrivals` (tasks in the order they were pushed
onto the pending queue) are ghost instrumentation used only to state
properties. -/
structure SystemState where
  tasks : List (Nat × Task) := []
  queue : List Task := []
  processing : Bool := false
  nextId : Nat := 0
  esc : EscState := {}
  breakers : List (Nat × Breaker) := []
  opIndex : Nat := 0
  executions : Nat := 0
  arrivals : List Task := []

/-- `TaskQueue.addTask` (lines 36-55): build the task with `||`-defaulted
fields, store it, push it and re-sort the pending queue.  Returns the new
task together with the new state. -/
def addTask (s : SystemState) (input : TaskInput) (now : Nat) :
    Task × SystemState :=
  let t : Task :=
    { id := s.nextId
      type := orDefaultStr input.type "generic"
      status := .PENDING
      priority := orDefaultInt input.priority 5
      attempts := 0
      maxAttempts := orDefaultInt input.maxAttempts 3
      createdAt := now
      updatedAt := now
      metadata := input.metadata.getD [] }
  (t, { s with
        tasks := setTask s.tasks t.id t
        queue := sortQueue (s.queue ++ [t])
        nextId := s.nextId + 1
        arrivals := s.arrivals ++ [t] })

/-- `TaskQueue.processTask` (lines 74-119) on a dequeued task: mark it
running, bump `attempts`, drive it through `executeWithRetry`, then branch
exactly as the source does.  Returns the final task record, whether it is
to be re-enqueued, and the updated escalation / breaker / oracle state. -/
def processTask (esc : EscState) (cbs : List (Nat × Breaker)) (k : Nat)
    (ops : Nat → Option String) (t : Task) (now : Nat) :
    Task × Bool × EscState × List (Nat × Breaker) × Nat :=
  let t1 : Task := { t with status := .RUNNING, attempts := t.attempts + 1,
                            updatedAt := now }
  let strategies := getMultiApproachStrategies t1.type
  let r := executeWithRetry cbs t1.id ops k strategies defaultConfig now
  if r.1.success then
    ({ t1 with status := .COMPLETED }, false, esc, r.2.1, r.2.2)
  else if t1.maxAttempts ≤ (t1.attempts : Int) then
    let t2 : Task := { t1 with status := .FAILED, error := r.1.error }
    let c := checkEscalation esc t2.id t2.attempts
    if c.1 = .HUMAN_INTERVENTION then
      let t3 : Task := { t2 with status := .ESCALATED }
      (t3, false,
       escalate c.2 t3.id c.1
         ("Task failed after " ++ toString t3.attempts ++ " attempts") now,
       r.2.1, r.2.2)
    else
      (t2, false, c.2, r.2.1, r.2.2)
  else
    ({ t1 with status := .PENDING }, true, esc, r.2.1, r.2.2)

/-- `TaskQueue.processQueue` (lines 57-72): no-op when a cycle is already
in flight or the pending list is empty; otherwise shift the head task,
drive it through `processTask`, write the final record back into the task
map, re-enqueue it (push + re-sort) when it still has budget, and clear the
`processing` flag. -/
def processQueue (s : SystemState) (ops : Nat → Option String) (now : Nat) :
    SystemState :=
  if s.processing || s.queue.isEmpty then s
  else
    match s.queue with
    | [] => s
    | t :: rest =>
        let p := processTask s.esc s.breakers s.opIndex ops t now
        { s with
          tasks := setTask s.tasks p.1.id p.1
          queue := if p.2.1 then sortQueue (rest ++ [p.1]) else rest
          processing := false
          esc := p.2.2.1
          breakers := p.2.2.2.1
          opIndex := p.2.2.2.2
          executions := s.executions + 1
          arrivals := if p.2.1 then s.arrivals ++ [p.1] else s.arrivals }

/-- `TaskQueue.getTask`. -/
def getTask (s : SystemState) (taskId : Nat) : Option Task :=
  lookupTask s.tasks taskId

/-- One external stimulus: an `addTask` call or a cron-driven
`processQueue` cycle, each carrying the clock value at which it runs, and a
cycle carrying the outcome oracle for the operations it executes. -/
inductive Op where
  | add (input : TaskInput) (now : Nat)
  | cycle (ops : Nat → Option String) (now : Nat)

/-- Apply one stimulus to the state. -/
def step (s : SystemState) : Op → SystemState
  | .add input now => (addTask s input now).2
  | .cycle ops now => processQueue s ops now

/-- Run a sequence of stimuli from a given state. -/
def run (s : SystemState) : List Op → SystemState
  | [] => s
  | op :: rest => run (step s op) rest

/-- The freshly constructed orchestrator: all stores empty, no cycle in
flight. -/
def initState : SystemState := {}

/-! ## Lemmas about the escalation classification -/

/-- The JavaScript comparison `failures >= threshold / 2`, taken over the
rationals, agrees with the integer comparison `threshold <= 2 * failures`. -/
lemma classify_half_iff (T c : ℕ) : ((T : ℚ) / 2 ≤ (c : ℚ)) ↔ T ≤ 2 * c := by
  rw [div_le_iff₀ (by norm_num : (0 : ℚ) < 2)]
  constructor
  · intro h
    have h3 : (T : ℚ) ≤ ((2 * c : ℕ) : ℚ) := by push_cast; linarith
    exact_mod_cast h3
  · intro h
    have h3 : ((T : ℕ) : ℚ) ≤ ((2 * c : ℕ) : ℚ) := by exact_mod_cast h
    push_cast at h3
    linarith

/-- The source-literal rational form of the cascade agrees with the
integer form used operationally. -/
lemma classifyLevelQ_eq (T c : ℕ) : classifyLevelQ T c = classifyLevel T c := by
  simp only [classifyLevelQ, classifyLevel, classify_half_iff]

/-- `classifyLevel` with its guards spelled out. -/
lemma classifyLevel_eq (T c : ℕ) :
    classifyLevel T c =
      if T * 2 ≤ c then .HUMAN_INTERVENTION
      else if T ≤ c then .CRITICAL
      else if T ≤ 2 * c then .ERROR
      else if 0 < c then .WARNING
      else .INFO := rfl

/-! ## Claim C2: the classification ladder -/

/-- C2 (confirmed).  With base threshold `T > 0` (the source fixes `T = 5`)
and failure count `c`, `classifyLevel` returns Info when `c = 0`, Warning
when `0 < c < T/2`, Error when `T/2 ≤ c < T`, Critical when `T ≤ c < 2T`
and HumanIntervention when `c ≥ 2T`; in particular it maps `0` to Info,
`T` to Critical and `2T` to HumanIntervention, and it is monotone
non-decreasing in the failure count. -/
theorem claim_C2 (T c : ℕ) (hT : 0 < T) :
    (c = 0 → classifyLevel T c = .INFO) ∧
    (0 < c → (c : ℚ) < (T : ℚ) / 2 → classifyLevel T c = .WARNING) ∧
    ((T : ℚ) / 2 ≤ (c : ℚ) → c < T → classifyLevel T c = .ERROR) ∧
    (T ≤ c → c < 2 * T → classifyLevel T c = .CRITICAL) ∧
    (2 * T ≤ c → classifyLevel T c = .HUMAN_INTERVENTION) ∧
    classifyLevel T 0 = .INFO ∧
    classifyLevel T T = .CRITICAL ∧
    classifyLevel T (2 * T) = .HUMAN_INTERVENTION ∧
    (∀ c', c ≤ c' → (classifyLevel T c).toNat ≤ (classifyLevel T c').toNat) := by
  refine ⟨?_, ?_, ?_, ?_, ?_, ?_, ?_, ?_, ?_⟩
  · intro h
    subst h
    rw [classifyLevel_eq]
    split_ifs <;> first | rfl | omega
  · intro hc hlt
    have h2 : ¬ T ≤ 2 * c := fun hh =>
      absurd ((classify_half_iff T c).mpr hh) (not_le_of_lt hlt)
    rw [classifyLevel_eq]
    split_ifs <;> first | rfl | omega
  · intro h1 h2
    have h3 : T ≤ 2 * c := (classify_half_iff T c).mp h1
    rw [classifyLevel_eq]
    split_ifs <;> first | rfl | omega
  · intro h1 h2
    rw [classifyLevel_eq]
    split_ifs <;> first | rfl | omega
  · intro h1
    rw [classifyLevel_eq]
    split_ifs <;> first | rfl | omega
  · rw [classifyLevel_eq]
    split_ifs <;> first | rfl | omega
  · rw [classifyLevel_eq]
    split_ifs <;> first | rfl | omega
  · rw [classifyLevel_eq]
    split_ifs <;> first | rfl | omega
  · intro c' hcc
    rw [classifyLevel_eq, classifyLevel_eq]
    split_ifs <;> first | decide | omega

/-- Witness for C2 at the source's threshold `T = 5`: the concrete
classifications at counts 0, 3, 5 and 10. -/
theorem claim_C2_witness :
    (0 < 5 ∧ classifyLevel 5 0 = .INFO) ∧ classifyLevel 5 5 = .CRITICAL ∧
      classifyLevel 5 10 = .HUMAN_INTERVENTION ∧ classifyLevel 5 3 = .ERROR :=
  ⟨⟨by decide, (claim_C2 5 0 (by decide)).1 rfl⟩,
   (claim_C2 5 5 (by decide)).2.2.2.2.2.2.1,
   (claim_C2 5 10 (by decide)).2.2.2.2.2.2.2.1,
   (claim_C2 5 3 (by decide)).2.2.1 (by norm_num) (by decide)⟩

/-! ## Claim C7: `checkEscalation` is not a pure function of its arguments -/

/-- C7 (corrected): the claim says `checkEscalation` leaves the manager's
state — event history *and* failure-count index — unchanged.  It does not:
line 64 of the source executes `this.taskFailureCounts.set(taskId,
failures)`, so calling it on the pristine manager with task 1 and count 3
changes the state, inserting `(1, 3)` into the failure-count index. -/
theorem counterexample_C7 :
    (checkEscalation {} 1 3).2 ≠ ({} : EscState) ∧
    (checkEscalation {} 1 3).2.taskFailureCounts = [(1, 3)] := by
  constructor
  · intro h
    have h2 : (checkEscalation {} 1 3).2.taskFailureCounts =
        ({} : EscState).taskFailureCounts := by rw [h]
    simp [checkEscalation, setCount] at h2
  · rfl

/-- C7 (amended): `checkEscalation` leaves the event history (and the
threshold) unchanged and its returned level is the pure classification of
the threshold and the failure count, but it does update the failure-count
index, recording the supplied count for the task. -/
theorem claim_C7 (st : EscState) (taskId failures : Nat) :
    (checkEscalation st taskId failures).1 =
        classifyLevel st.escalationThreshold failures ∧
    (checkEscalation st taskId failures).2.escalationHistory =
        st.escalationHistory ∧
    (checkEscalation st taskId failures).2.escalationThreshold =
        st.escalationThreshold ∧
    (checkEscalation st taskId failures).2.taskFailureCounts =
        setCount st.taskFailureCounts taskId failures :=
  ⟨rfl, rfl, rfl, rfl⟩

/-! ## Claim C8: the delay computation -/

/-- C8 (confirmed).  For every configuration, zero-based attempt index `i`
and jitter draw `u`, the pre-jitter delay is `min(baseDelay * 2^i,
maxDelay)` for exponential backoff, `min(baseDelay * (i+1), maxDelay)` for
linear backoff, `0` for immediate retry and the flat `baseDelay` for the
remaining strategies; the returned delay adds `delay * jitterFactor *
(u - 1/2)` and floors at zero, and immediate retry therefore always yields
exactly `0`. -/
theorem claim_C8 (config : RetryConfig) (i : Nat) (u : ℚ) :
    (calculateDelay .EXPONENTIAL_BACKOFF i config u =
      max 0 (min (config.baseDelay * 2 ^ i) config.maxDelay +
        min (config.baseDelay * 2 ^ i) config.maxDelay *
          config.jitterFactor * (u - 1/2))) ∧
    (calculateDelay .LINEAR_BACKOFF i config u =
      max 0 (min (config.baseDelay * ((i : ℚ) + 1)) config.maxDelay +
        min (config.baseDelay * ((i : ℚ) + 1)) config.maxDelay *
          config.jitterFactor * (u - 1/2))) ∧
    (calculateDelay .IMMEDIATE_RETRY i config u = 0) ∧
    (calculateDelay .CIRCUIT_BREAKER i config u =
      max 0 (config.baseDelay +
        config.baseDelay * config.jitterFactor * (u - 1/2))) ∧
    (calculateDelay .ALTERNATIVE_APPROACH i config u =
      max 0 (config.baseDelay +
        config.baseDelay * config.jitterFactor * (u - 1/2))) := by
  refine ⟨rfl, rfl, ?_, rfl, rfl⟩
  simp [calculateDelay]

/-! ## Lemmas about the circuit-breaker map -/

lemma getBreaker_setBreaker (cbs : List (Nat × Breaker)) (taskId : Nat)
    (b : Breaker) : getBreaker (setBreaker cbs taskId b) taskId = some b := by
  induction cbs with
  | nil => simp [setBreaker, getBreaker]
  | cons hd tl ih =>
      obtain ⟨k, w⟩ := hd
      by_cases hk : k = taskId
      · simp [setBreaker, getBreaker, hk]
      · simp [setBreaker, getBreaker, hk, ih]

lemma getBreaker_deleteBreaker (cbs : List (Nat × Breaker)) (taskId : Nat) :
    getBreaker (deleteBreaker cbs taskId) taskId = none := by
  induction cbs with
  | nil => rfl
  | cons hd tl ih =>
      obtain ⟨k, w⟩ := hd
      by_cases hk : k = taskId
      · simpa [deleteBreaker, List.filter_cons, hk] using ih
      · simpa [deleteBreaker, List.filter_cons, hk, getBreaker] using ih

lemma getBreaker_recordFailure (cbs : List (Nat × Breaker)) (taskId now : Nat) :
    getBreaker (recordFailure cbs taskId now) taskId =
      some { failures :=
               ((getBreaker cbs taskId).getD
                 { failures := 0, lastFailure := 0 }).failures + 1,
             lastFailure := now } :=
  getBreaker_setBreaker cbs taskId _

lemma isCircuitBreakerOpen_of_open (cbs : List (Nat × Breaker))
    (taskId now : Nat) (b : Breaker) (hb : getBreaker cbs taskId = some b)
    (h1 : circuitBreakerThreshold ≤ b.failures)
    (h2 : now - b.lastFailure < circuitBreakerTimeout) :
    isCircuitBreakerOpen cbs taskId now = (true, cbs) := by
  simp [isCircuitBreakerOpen, hb, h1, h2]

lemma isCircuitBreakerOpen_below (cbs : List (Nat × Breaker))
    (taskId now : Nat) (b : Breaker) (hb : getBreaker cbs taskId = some b)
    (h1 : b.failures < circuitBreakerThreshold) :
    isCircuitBreakerOpen cbs taskId now = (false, cbs) := by
  simp [isCircuitBreakerOpen, hb, not_le_of_lt h1]

lemma isCircuitBreakerOpen_elapsed (cbs : List (Nat × Breaker))
    (taskId now : Nat) (b : Breaker) (hb : getBreaker cbs taskId = some b)
    (h1 : circuitBreakerThreshold ≤ b.failures)
    (h2 : circuitBreakerTimeout ≤ now - b.lastFailure) :
    isCircuitBreakerOpen cbs taskId now = (false, deleteBreaker cbs taskId) := by
  simp [isCircuitBreakerOpen, hb, h1, not_lt_of_le h2]

/-- With the breaker open, a strategy short-circuits: it fails with the
breaker-open error and consumes no operation invocation (the oracle index
comes back unchanged). -/
lemma executeStrategy_blocked (cbs : List (Nat × Breaker)) (taskId : Nat)
    (ops : Nat → Option String) (k : Nat) (strategy : RetryStrategy)
    (config : RetryConfig) (now : Nat)
    (h : (isCircuitBreakerOpen cbs taskId now).1 = true) :
    (executeStrategy cbs taskId ops k strategy config now).1.success = false ∧
    (executeStrategy cbs taskId ops k strategy config now).2.2 = k ∧
    (0 < config.maxAttempts →
      (executeStrategy cbs taskId ops k strategy config now).1.error =
        some "Circuit breaker open") := by
  unfold executeStrategy
  cases hma : config.maxAttempts with
  | zero => simp [executeStrategyGo]
  | succ m => simp [executeStrategyGo, h]

lemma executeWithRetryGo_some_breaker (taskId : Nat)
    (ops : Nat → Option String) (config : RetryConfig) (now : Nat) :
    ∀ (strategies : List RetryStrategy) (cbs : List (Nat × Breaker))
      (k : Nat) (lastError : Option String) (r : StratResult),
      (executeWithRetryGo taskId ops config now strategies cbs k lastError).1 =
          some r →
      getBreaker
        (executeWithRetryGo taskId ops config now strategies cbs k
          lastError).2.1 taskId = none := by
  intro strategies
  induction strategies with
  | nil =>
      intro cbs k lastError r h
      simp [executeWithRetryGo] at h
  | cons s rest ih =>
      intro cbs k lastError r h
      by_cases hs : (executeStrategy cbs taskId ops k s config now).1.success
      · simp only [executeWithRetryGo, hs, if_true, resetCircuitBreaker]
        exact getBreaker_deleteBreaker _ _
      · simp only [executeWithRetryGo, hs, if_false, Bool.false_eq_true] at h ⊢
        exact ih _ _ _ _ h

/-- A successful `executeWithRetry` deletes the breaker record for the
identity. -/
lemma executeWithRetry_success_clears (cbs : List (Nat × Breaker))
    (taskId : Nat) (ops : Nat → Option String) (k : Nat)
    (strategies : List RetryStrategy) (config : RetryConfig) (now : Nat)
    (h : (executeWithRetry cbs taskId ops k strategies config now).1.success =
      true) :
    getBreaker
      (executeWithRetry cbs taskId ops k strategies config now).2.1 taskId =
      none := by
  rcases hg : executeWithRetryGo taskId ops config now strategies cbs k none
    with ⟨og, cbs2, k2, le2⟩
  cases og with
  | none => simp [executeWithRetry, hg] at h
  | some r =>
      have h2 := executeWithRetryGo_some_breaker taskId ops config now
        strategies cbs k none r (by rw [hg])
      rw [hg] at h2
      simpa [executeWithRetry, hg] using h2

/-! ## Claim C5: circuit-breaker semantics -/

/-- An operation oracle that throws a network error on every invocation. -/
def failOps : Nat → Option String := fun _ => some "network error"

/-- Five recorded failures for identity 1, all at time 0: the fifth one
trips the breaker, so `openedAt` in the claim's sense is 0. -/
def cexBreakersTripped : List (Nat × Breaker) :=
  recordFailure (recordFailure (recordFailure (recordFailure
    (recordFailure [] 1 0) 1 0) 1 0) 1 0) 1 0

/-- An `executeWithRetry` call for identity 1 at time 30000, while the
breaker is open. -/
def cexBlockedCall : RetryResult × List (Nat × Breaker) × Nat :=
  executeWithRetry cexBreakersTripped 1 failOps 0 [.EXPONENTIAL_BACKOFF]
    defaultConfig 30000

/-- C5 (corrected): the claim says the breaker blocks attempts "until the
cool-down window (default 60s) measured from the failure that tripped the
breaker (openedAt) has elapsed, after which the breaker is treated as reset
on the next check".  Concretely: the breaker for identity 1 trips at time 0
(five recorded failures, `lastFailure = 0`); a call at time 30000 is
blocked as expected, but — being an overall failure — it re-records a
failure, moving `lastFailure` to 30000; at time 70000, a full 70s after the
tripping failure, the claim demands the breaker be treated as reset, yet
the check still reports it open, because the source measures the window
from the most recent recorded failure, not from the tripping one. -/
theorem counterexample_C5 :
    cexBreakersTripped = [(1, { failures := 5, lastFailure := 0 })] ∧
    (isCircuitBreakerOpen cexBreakersTripped 1 30000).1 = true ∧
    cexBlockedCall.1.success = false ∧
    cexBlockedCall.1.error = some "Circuit breaker open" ∧
    cexBlockedCall.2.2 = 0 ∧
    cexBlockedCall.2.1 = [(1, { failures := 6, lastFailure := 30000 })] ∧
    circuitBreakerTimeout ≤ 70000 - 0 ∧
    (isCircuitBreakerOpen cexBlockedCall.2.1 1 70000).1 = true := by
  decide

/-- C5 (amended): the breaker trips open once the recorded consecutive
failures reach the threshold (default 5) and, while open, every strategy
pass for the identity short-circuits with a breaker-open error without
invoking the operation; below the threshold the check reports closed; the
cool-down window (default 60s) is measured from the most recent recorded
failure (`lastFailure`, which every fully-failed call — including a blocked
one — re-records, extending the window), and once it has elapsed the next
check resets the breaker by deleting the record; a single successful
execution deletes the record entirely. -/
theorem claim_C5 :
    (∀ (cbs : List (Nat × Breaker)) (taskId now : Nat),
        getBreaker (recordFailure cbs taskId now) taskId =
          some { failures :=
                   ((getBreaker cbs taskId).getD
                     { failures := 0, lastFailure := 0 }).failures + 1,
                 lastFailure := now }) ∧
    (∀ (cbs : List (Nat × Breaker)) (taskId now : Nat) (b : Breaker),
        getBreaker cbs taskId = some b →
        circuitBreakerThreshold ≤ b.failures →
        now - b.lastFailure < circuitBreakerTimeout →
        isCircuitBreakerOpen cbs taskId now = (true, cbs)) ∧
    (∀ (cbs : List (Nat × Breaker)) (taskId now : Nat) (b : Breaker),
        getBreaker cbs taskId = some b →
        b.failures < circuitBreakerThreshold →
        isCircuitBreakerOpen cbs taskId now = (false, cbs)) ∧
    (∀ (cbs : List (Nat × Breaker)) (taskId now : Nat) (b : Breaker),
        getBreaker cbs taskId = some b →
        circuitBreakerThreshold ≤ b.failures →
        circuitBreakerTimeout ≤ now - b.lastFailure →
        isCircuitBreakerOpen cbs taskId now =
            (false, deleteBreaker cbs taskId) ∧
        getBreaker (deleteBreaker cbs taskId) taskId = none) ∧
    (∀ (cbs : List (Nat × Breaker)) (taskId : Nat)
        (ops : Nat → Option String) (k : Nat) (strategy : RetryStrategy)
        (config : RetryConfig) (now : Nat),
        (isCircuitBreakerOpen cbs taskId now).1 = true →
        (executeStrategy cbs taskId ops k strategy config now).1.success =
            false ∧
        (executeStrategy cbs taskId ops k strategy config now).2.2 = k ∧
        (0 < config.maxAttempts →
          (executeStrategy cbs taskId ops k strategy config now).1.error =
            some "Circuit breaker open")) ∧
    (∀ (cbs : List (Nat × Breaker)) (taskId : Nat)
        (ops : Nat → Option String) (k : Nat)
        (strategies : List RetryStrategy) (config : RetryConfig) (now : Nat),
        (executeWithRetry cbs taskId ops k strategies config now).1.success =
            true →
        getBreaker
          (executeWithRetry cbs taskId ops k strategies config now).2.1
          taskId = none) :=
  ⟨fun cbs taskId now => getBreaker_recordFailure cbs taskId now,
   fun cbs taskId now b => isCircuitBreakerOpen_of_open cbs taskId now b,
   fun cbs taskId now b => isCircuitBreakerOpen_below cbs taskId now b,
   fun cbs taskId now b hb h1 h2 =>
     ⟨isCircuitBreakerOpen_elapsed cbs taskId now b hb h1 h2,
      getBreaker_deleteBreaker cbs taskId⟩,
   fun cbs taskId ops k strategy config now =>
     executeStrategy_blocked cbs taskId ops k strategy config now,
   fun cbs taskId ops k strategies config now =>
     executeWithRetry_success_clears cbs taskId ops k strategies config now⟩

/-- Witness for C5: a breaker record with 5 failures recorded at time 0 is
reported open at time 10, and an open breaker makes a strategy
short-circuit with the breaker-open error without consuming the oracle. -/
theorem claim_C5_witness :
    isCircuitBreakerOpen [(1, { failures := 5, lastFailure := 0 })] 1 10 =
      (true, [(1, { failures := 5, lastFailure := 0 })]) ∧
    (executeStrategy [(1, { failures := 5, lastFailure := 0 })] 1 failOps 4
      .EXPONENTIAL_BACKOFF defaultConfig 10).1.error =
      some "Circuit breaker open" :=
  ⟨claim_C5.2.1 [(1, { failures := 5, lastFailure := 0 })] 1 10
     { failures := 5, lastFailure := 0 } (by decide) (by decide) (by decide),
   (claim_C5.2.2.2.2.1 [(1, { failures := 5, lastFailure := 0 })] 1 failOps 4
     .EXPONENTIAL_BACKOFF defaultConfig 10 (by decide)).2.2 (by decide)⟩

/-! ## Claim C10: the exhaustion result of `executeWithRetry` -/

/-- C10 (confirmed).  Whenever `executeWithRetry` fails overall, the
reported attempt count is `config.maxAttempts * strategies.length`
regardless of how many executions actually ran; for an empty strategy list
it returns failure with 0 attempts, no defined strategy and no error, and
still records one failure against the identity's circuit breaker. -/
theorem claim_C10 :
    (∀ (cbs : List (Nat × Breaker)) (taskId : Nat)
        (ops : Nat → Option String) (k : Nat)
        (strategies : List RetryStrategy) (config : RetryConfig) (now : Nat),
        (executeWithRetry cbs taskId ops k strategies config now).1.success =
            false →
        (executeWithRetry cbs taskId ops k strategies config now).1.attempts =
          config.maxAttempts * strategies.length) ∧
    (∀ (cbs : List (Nat × Breaker)) (taskId : Nat)
        (ops : Nat → Option String) (k : Nat) (config : RetryConfig)
        (now : Nat),
        (executeWithRetry cbs taskId ops k [] config now).1 =
          { success := false, attempts := 0, strategy := none,
            error := none } ∧
        getBreaker (executeWithRetry cbs taskId ops k [] config now).2.1
            taskId =
          some { failures :=
                   ((getBreaker cbs taskId).getD
                     { failures := 0, lastFailure := 0 }).failures + 1,
                 lastFailure := now }) := by
  constructor
  · intro cbs taskId ops k strategies config now hfail
    rcases hg : executeWithRetryGo taskId ops config now strategies cbs k none
      with ⟨og, cbs2, k2, le2⟩
    cases og with
    | none => simp [executeWithRetry, hg]
    | some r => simp [executeWithRetry, hg] at hfail
  · intro cbs taskId ops k config now
    exact ⟨rfl, getBreaker_recordFailure cbs taskId now⟩

/-- Witness for C10: a single exhausted exponential-backoff strategy under
the default configuration reports `3 * 1 = 3` attempts. -/
theorem claim_C10_witness :
    (executeWithRetry [] 7 failOps 0 [.EXPONENTIAL_BACKOFF] defaultConfig
      0).1.attempts = 3 :=
  claim_C10.1 [] 7 failOps 0 [.EXPONENTIAL_BACKOFF] defaultConfig 0
    (by decide)

/-! ## Claim C1: the single-flight guard of `processQueue` -/

/-- C1 (confirmed).  Invoking `processQueue` while a cycle is in flight
(`processing = true`) or while the pending list is empty is a no-op that
leaves the whole state unchanged; any single invocation drives at most one
task through `processTask` (the ghost `executions` counter grows by at most
one); and two invocations in rapid succession while a cycle is in flight
leave the state — in particular the number of executed tasks — exactly as
it was. -/
theorem claim_C1 (s : SystemState) (ops ops2 : Nat → Option String)
    (now now2 : Nat) :
    (s.processing = true ∨ s.queue = [] → processQueue s ops now = s) ∧
    (processQueue s ops now).executions ≤ s.executions + 1 ∧
    (s.processing = true →
      processQueue (processQueue s ops now) ops2 now2 = s) := by
  have hnoop : ∀ (o : Nat → Option String) (n : Nat),
      s.processing = true ∨ s.queue = [] → processQueue s o n = s := by
    intro o n h
    rcases h with h | h
    · simp [processQueue, h]
    · simp [processQueue, h]
  refine ⟨hnoop ops now, ?_, ?_⟩
  · by_cases hc : (s.processing || s.queue.isEmpty) = true
    · simp [processQueue, hc]
    · simp only [Bool.or_eq_true, not_or, Bool.not_eq_true] at hc
      rcases hq : s.queue with _ | ⟨t, rest⟩
      · simp [processQueue, hc.1, hc.2, hq]
      · simp [processQueue, hc.1, hc.2, hq]
  · intro hp
    rw [hnoop ops now (Or.inl hp)]
    exact hnoop ops2 now2 (Or.inl hp)

/-- Witness for C1: on a busy orchestrator (`processing = true`) a cycle
invocation returns the state unchanged. -/
theorem claim_C1_witness :
    processQueue ({ processing := true } : SystemState) failOps 0 =
      ({ processing := true } : SystemState) :=
  (claim_C1 ({ processing := true } : SystemState) failOps failOps 0 0).1
    (Or.inl rfl)

/-! ## Claim C9: the defaulting behaviour of `addTask` -/

/-- `true` when the supplied `maxAttempts` is absent or non-negative. -/
def TaskInput.okMax (input : TaskInput) : Bool :=
  match input.maxAttempts with
  | none => true
  | some n => decide (0 ≤ n)

/-- `lookupTask` finds the entry `setTask` just wrote. -/
lemma lookupTask_setTask (l : List (Nat × Task)) (taskId : Nat) (t : Task) :
    lookupTask (setTask l taskId t) taskId = some t := by
  induction l with
  | nil => simp [setTask, lookupTask]
  | cons hd tl ih =>
      obtain ⟨k, w⟩ := hd
      by_cases hk : k = taskId
      · simp [setTask, lookupTask, hk]
      · simp [setTask, lookupTask, hk, ih]

/-- The `||`-defaulted `maxAttempts` is positive when the supplied value is
absent or non-negative (absent and `0` become `3`; a positive value is kept). -/
lemma okMax_maxAttempts_pos (input : TaskInput) (h : input.okMax = true) :
    0 < orDefaultInt input.maxAttempts 3 := by
  unfold TaskInput.okMax at h
  unfold orDefaultInt
  cases hv : input.maxAttempts with
  | none => simp
  | some n =>
      rw [hv] at h
      simp only [decide_eq_true_eq] at h
      by_cases hn : n = 0
      · simp [hn]
      · simp only [hn, if_false]
        omega

/-- C9 (corrected): the claim says every stored task has `maxAttempts >= 1`
under the `||`-defaulting.  `maxAttempts: taskData.maxAttempts || 3` only
replaces the falsy `0` (and an absent value); a negative supplied value is
truthy and stored as-is, so `addTask` with `maxAttempts = -1` stores a task
with `maxAttempts = -1 < 1`. -/
theorem counterexample_C9 :
    (addTask initState { maxAttempts := some (-1) } 0).1.maxAttempts = -1 ∧
    ¬ 1 ≤ (addTask initState { maxAttempts := some (-1) } 0).1.maxAttempts := by
  decide

/-- C9 (amended).  `addTask` substitutes defaults for omitted or falsy
fields — `type` becomes `"generic"`, `priority` becomes `5`, `maxAttempts`
becomes `3`, so an explicit `maxAttempts` of `0` is silently replaced by
`3` — and every stored task starts with status Pending and 0 attempts; the
stored `maxAttempts` is at least 1 whenever the supplied value is omitted
or non-negative (a negative supplied value is stored unchanged). -/
theorem claim_C9 (s : SystemState) (input : TaskInput) (now : Nat) :
    (addTask s input now).1.status = .PENDING ∧
    (addTask s input now).1.attempts = 0 ∧
    (input.type = none ∨ input.type = some "" →
      (addTask s input now).1.type = "generic") ∧
    (input.priority = none ∨ input.priority = some 0 →
      (addTask s input now).1.priority = 5) ∧
    (input.maxAttempts = none ∨ input.maxAttempts = some 0 →
      (addTask s input now).1.maxAttempts = 3) ∧
    (input.okMax = true → 1 ≤ (addTask s input now).1.maxAttempts) ∧
    getTask (addTask s input now).2 (addTask s input now).1.id =
      some (addTask s input now).1 := by
  refine ⟨rfl, rfl, ?_, ?_, ?_, ?_, ?_⟩
  · intro h
    rcases h with h | h <;> simp [addTask, orDefaultStr, h]
  · intro h
    rcases h with h | h <;> simp [addTask, orDefaultInt, h]
  · intro h
    rcases h with h | h <;> simp [addTask, orDefaultInt, h]
  · intro h
    have := okMax_maxAttempts_pos input h
    show 1 ≤ orDefaultInt input.maxAttempts 3
    omega
  · exact lookupTask_setTask s.tasks _ _

/-- Witness for C9: with no fields supplied, the stored task gets type
`"generic"`, priority `5` and `maxAttempts 3 ≥ 1`. -/
theorem claim_C9_witness :
    (addTask initState {} 0).1.type = "generic" ∧
    (addTask initState {} 0).1.priority = 5 ∧
    (addTask initState {} 0).1.maxAttempts = 3 ∧
    1 ≤ (addTask initState {} 0).1.maxAttempts :=
  ⟨(claim_C9 initState {} 0).2.2.1 (Or.inl rfl),
   (claim_C9 initState {} 0).2.2.2.1 (Or.inl rfl),
   (claim_C9 initState {} 0).2.2.2.2.1 (Or.inl rfl),
   (claim_C9 initState {} 0).2.2.2.2.2.1 rfl⟩

/-! ## Lemmas about the stable descending sort -/

/-- A pending list sorted by descending priority. -/
def SortedDesc (l : List Task) : Prop :=
  l.Pairwise (fun a b => b.priority ≤ a.priority)

/-- The equal-priority slice of a list: the tasks of priority `p` in their
current relative order. -/
def stableFilter (p : Int) (l : List Task) : List Task :=
  l.filter (fun u => u.priority = p)

lemma insertDesc_perm (t : Task) (l : List Task) :
    (insertDesc t l).Perm (t :: l) := by
  induction l with
  | nil => exact List.Perm.refl _
  | cons u us ih =>
      by_cases h : u.priority ≤ t.priority
      · simp [insertDesc, h]
      · simp only [insertDesc, h, if_false]
        exact (ih.cons u).trans (List.Perm.swap t u us)

lemma mem_insertDesc {x t : Task} {l : List Task} :
    x ∈ insertDesc t l ↔ x = t ∨ x ∈ l := by
  rw [(insertDesc_perm t l).mem_iff]
  simp

lemma sortedDesc_insertDesc (t : Task) {l : List Task} (h : SortedDesc l) :
    SortedDesc (insertDesc t l) := by
  induction l with
  | nil => simp [insertDesc, SortedDesc]
  | cons u us ih =>
      obtain ⟨hu, hus⟩ := List.pairwise_cons.mp h
      by_cases hc : u.priority ≤ t.priority
      · simp only [insertDesc, hc, if_true]
        refine List.Pairwise.cons ?_ h
        intro b hb
        rcases List.mem_cons.mp hb with rfl | hb
        · exact hc
        · exact le_trans (hu b hb) hc
      · simp only [insertDesc, hc, if_false]
        refine List.Pairwise.cons ?_ (ih hus)
        intro b hb
        rcases mem_insertDesc.mp hb with rfl | hb
        · exact le_of_lt (lt_of_not_le hc)
        · exact hu b hb

lemma sortQueue_perm (l : List Task) : (sortQueue l).Perm l := by
  induction l with
  | nil => exact List.Perm.refl _
  | cons t ts ih => exact (insertDesc_perm t (sortQueue ts)).trans (ih.cons t)

lemma sortQueue_sorted (l : List Task) : SortedDesc (sortQueue l) := by
  induction l with
  | nil => simp [sortQueue, SortedDesc]
  | cons t ts ih => exact sortedDesc_insertDesc t ih

/-- Stability of the insertion: the equal-priority slice gains `t` at its
front when `t` has priority `p` (the skipped prefix is strictly higher
priority) and is untouched otherwise. -/
lemma stableFilter_insertDesc (p : Int) (t : Task) (l : List Task) :
    stableFilter p (insertDesc t l) =
      if t.priority = p then t :: stableFilter p l else stableFilter p l := by
  induction l with
  | nil =>
      by_cases ht : t.priority = p <;>
        simp [insertDesc, stableFilter, List.filter_cons, ht]
  | cons u us ih =>
      by_cases hc : u.priority ≤ t.priority
      · simp only [insertDesc, hc, if_true]
        by_cases ht : t.priority = p <;>
          simp [stableFilter, List.filter_cons, ht]
      · by_cases hu : u.priority = p
        · have ht : ¬ t.priority = p := by
            intro ht
            exact hc (le_of_eq (hu.trans ht.symm))
          simp only [insertDesc, hc, if_false, stableFilter,
            List.filter_cons] at ih ⊢
          simp only [ht, if_false] at ih
          simp [hu, ht, ih]
        · simp only [insertDesc, hc, if_false, stableFilter,
            List.filter_cons] at ih ⊢
          simp [hu, ih]

/-- `sortQueue` never reorders an equal-priority slice. -/
lemma stableFilter_sortQueue (p : Int) (l : List Task) :
    stableFilter p (sortQueue l) = stableFilter p l := by
  induction l with
  | nil => rfl
  | cons t ts ih =>
      show stableFilter p (insertDesc t (sortQueue ts)) = _
      rw [stableFilter_insertDesc]
      simp only [ih]
      by_cases ht : t.priority = p <;>
        simp [stableFilter, List.filter_cons, ht]

lemma stableFilter_append (p : Int) (l₁ l₂ : List Task) :
    stableFilter p (l₁ ++ l₂) = stableFilter p l₁ ++ stableFilter p l₂ := by
  simp [stableFilter]

/-- The main branch of `processQueue`: with no cycle in flight and a
non-empty pending list, the head task is shifted, processed, written back,
and re-enqueued exactly when it still has budget. -/
lemma processQueue_cons (s : SystemState) (ops : Nat → Option String)
    (now : Nat) (t : Task) (rest : List Task) (hp : s.processing = false)
    (hq : s.queue = t :: rest) :
    processQueue s ops now =
      { s with
        tasks := setTask s.tasks
                   (processTask s.esc s.breakers s.opIndex ops t now).1.id
                   (processTask s.esc s.breakers s.opIndex ops t now).1
        queue := if (processTask s.esc s.breakers s.opIndex ops t now).2.1 =
                     true then
                   sortQueue (rest ++
                     [(processTask s.esc s.breakers s.opIndex ops t now).1])
                 else rest
        processing := false
        esc := (processTask s.esc s.breakers s.opIndex ops t now).2.2.1
        breakers := (processTask s.esc s.breakers s.opIndex ops t now).2.2.2.1
        opIndex := (processTask s.esc s.breakers s.opIndex ops t now).2.2.2.2
        executions := s.executions + 1
        arrivals := if (processTask s.esc s.breakers s.opIndex ops t
                        now).2.1 = true then
                      s.arrivals ++
                        [(processTask s.esc s.breakers s.opIndex ops t now).1]
                    else s.arrivals } := by
  simp [processQueue, hp, hq]

/-- One stimulus preserves the priority-queue invariant: the pending list
stays sorted by descending priority, and each equal-priority slice stays a
subsequence of the push log `arrivals` (i.e. equal-priority tasks sit in
the order they were inserted, earliest first). -/
lemma inv6_step (s : SystemState) (op : Op) (h1 : SortedDesc s.queue)
    (h2 : ∀ p : Int,
      (stableFilter p s.queue).Sublist (stableFilter p s.arrivals)) :
    SortedDesc (step s op).queue ∧
    ∀ p : Int, (stableFilter p (step s op).queue).Sublist
      (stableFilter p (step s op).arrivals) := by
  cases op with
  | add input now =>
      simp only [step, addTask]
      constructor
      · exact sortQueue_sorted _
      · intro p
        rw [stableFilter_sortQueue, stableFilter_append, stableFilter_append]
        exact (h2 p).append (List.Sublist.refl _)
  | cycle ops now =>
      simp only [step]
      rcases hq : s.queue with _ | ⟨t, rest⟩
      · have hid : processQueue s ops now = s := by simp [processQueue, hq]
        rw [hid]
        exact ⟨h1, h2⟩
      · by_cases hp : s.processing = true
        · have hid : processQueue s ops now = s := by simp [processQueue, hp]
          rw [hid]
          exact ⟨h1, h2⟩
        · have hp' : s.processing = false := by
            revert hp; cases s.processing <;> simp
          have hrest1 : SortedDesc rest := by
            rw [hq] at h1
            exact h1.of_cons
          have hrest2 : ∀ p : Int,
              (stableFilter p rest).Sublist (stableFilter p s.arrivals) := by
            intro p
            refine List.Sublist.trans ?_ (hq ▸ h2 p)
            exact List.Sublist.filter _ (List.sublist_cons_self t rest)
          rw [processQueue_cons s ops now t rest hp' hq]
          constructor
          · by_cases hb :
                (processTask s.esc s.breakers s.opIndex ops t now).2.1 = true
            · simp only [hb, if_true]
              exact sortQueue_sorted _
            · simp only [hb, if_false]
              exact hrest1
          · intro p
            by_cases hb :
                (processTask s.esc s.breakers s.opIndex ops t now).2.1 = true
            · simp only [hb, if_true]
              rw [stableFilter_sortQueue, stableFilter_append,
                stableFilter_append]
              exact (hrest2 p).append (List.Sublist.refl _)
            · simp only [hb, if_false]
              exact hrest2 p

/-- The priority-queue invariant holds along every run. -/
lemma inv6_run (trace : List Op) : ∀ (s : SystemState),
    SortedDesc s.queue →
    (∀ p : Int,
      (stableFilter p s.queue).Sublist (stableFilter p s.arrivals)) →
    SortedDesc (run s trace).queue ∧
    ∀ p : Int, (stableFilter p (run s trace).queue).Sublist
      (stableFilter p (run s trace).arrivals) := by
  induction trace with
  | nil => intro s h1 h2; exact ⟨h1, h2⟩
  | cons op rest ih =>
      intro s h1 h2
      have h := inv6_step s op h1 h2
      exact ih (step s op) h.1 h.2

/-! ## Claim C6: priority ordering of the pending list -/

/-- C6 (confirmed).  `sortQueue` is a stable descending sort: it permutes
its input, sorts it by descending priority and leaves every equal-priority
slice in its pre-sort relative order; `addTask` produces exactly
`sortQueue (queue ++ [newTask])` (and the failure branch of `processTask`
re-enqueues through the same push-then-`sortQueue`), so after every enqueue
and every re-enqueue the pending list is sorted by descending priority
while every equal-priority slice is a subsequence of the push log
`arrivals` — equal-priority tasks preserve their relative insertion order,
earliest inserted first. -/
theorem claim_C6 :
    (∀ l : List Task, (sortQueue l).Perm l) ∧
    (∀ l : List Task, SortedDesc (sortQueue l)) ∧
    (∀ (p : Int) (l : List Task),
      stableFilter p (sortQueue l) = stableFilter p l) ∧
    (∀ (s : SystemState) (input : TaskInput) (now : Nat),
      ((addTask s input now).2).queue =
        sortQueue (s.queue ++ [(addTask s input now).1])) ∧
    (∀ trace : List Op,
      SortedDesc (run initState trace).queue ∧
      ∀ p : Int, (stableFilter p (run initState trace).queue).Sublist
        (stableFilter p (run initState trace).arrivals)) :=
  ⟨sortQueue_perm, sortQueue_sorted, stableFilter_sortQueue,
   fun _ _ _ => rfl,
   fun trace => inv6_run trace initState (List.Pairwise.nil)
     (fun _ => List.Sublist.refl _)⟩

/-! ## Lemmas about `processTask` and the attempts budget -/

/-- What one `processTask` run does to the task record: `attempts` grows by
exactly one, the identity / priority / budget are untouched, the task is
re-enqueued only when it failed with strictly remaining budget (and then
with status Pending), and otherwise its final status is terminal. -/
lemma processTask_spec (esc : EscState) (cbs : List (Nat × Breaker)) (k : Nat)
    (ops : Nat → Option String) (t : Task) (now : Nat) :
    (processTask esc cbs k ops t now).1.attempts = t.attempts + 1 ∧
    (processTask esc cbs k ops t now).1.maxAttempts = t.maxAttempts ∧
    (processTask esc cbs k ops t now).1.priority = t.priority ∧
    (processTask esc cbs k ops t now).1.id = t.id ∧
    ((processTask esc cbs k ops t now).2.1 = true →
      (processTask esc cbs k ops t now).1.status = .PENDING ∧
      ((processTask esc cbs k ops t now).1.attempts : Int) <
        (processTask esc cbs k ops t now).1.maxAttempts) ∧
    ((processTask esc cbs k ops t now).2.1 = false →
      (processTask esc cbs k ops t now).1.status.terminal = true) := by
  simp only [processTask]
  split_ifs with h1 h2 h3
  · exact ⟨rfl, rfl, rfl, rfl, fun hb => by simp at hb, fun _ => rfl⟩
  · exact ⟨rfl, rfl, rfl, rfl, fun hb => by simp at hb, fun _ => rfl⟩
  · exact ⟨rfl, rfl, rfl, rfl, fun hb => by simp at hb, fun _ => rfl⟩
  · refine ⟨rfl, rfl, rfl, rfl, fun _ => ⟨rfl, ?_⟩, fun hb => by simp at hb⟩
    simp only [not_le] at h2
    exact h2

/-- Membership after a `setTask` update: an entry either carries the task
just written or was already present. -/
lemma mem_setTask {l : List (Nat × Task)} {taskId : Nat} {t : Task} :
    ∀ x ∈ setTask l taskId t, x.2 = t ∨ x ∈ l := by
  induction l with
  | nil =>
      intro x hx
      simp only [setTask, List.mem_singleton] at hx
      subst hx
      exact Or.inl rfl
  | cons hd tl ih =>
      obtain ⟨k, w⟩ := hd
      intro x hx
      by_cases hk : k = taskId
      · simp only [setTask, hk, if_true] at hx
        rcases List.mem_cons.mp hx with rfl | hx
        · exact Or.inl rfl
        · exact Or.inr (List.mem_cons_of_mem _ hx)
      · simp only [setTask, hk, if_false] at hx
        rcases List.mem_cons.mp hx with rfl | hx
        · exact Or.inr (List.mem_cons_self _ _)
        · rcases ih x hx with h | h
          · exact Or.inl h
          · exact Or.inr (List.mem_cons_of_mem _ h)

/-- A successful task-map lookup is list membership. -/
lemma lookupTask_mem {l : List (Nat × Task)} {taskId : Nat} {t : Task}
    (h : lookupTask l taskId = some t) : (taskId, t) ∈ l := by
  induction l with
  | nil => simp [lookupTask] at h
  | cons hd tl ih =>
      obtain ⟨k, w⟩ := hd
      by_cases hk : k = taskId
      · simp only [lookupTask, hk, if_true, Option.some.injEq] at h
        subst hk
        subst h
        exact List.mem_cons_self _ _
      · simp only [lookupTask, hk, if_false] at h
        exact List.mem_cons_of_mem _ (ih h)

/-- The attempts-budget invariant: every queued task is Pending with
strictly remaining budget, and every terminal task in the map respects
`attempts <= maxAttempts`. -/
def InvAttempts (s : SystemState) : Prop :=
  (∀ t ∈ s.queue, t.status = .PENDING ∧ (t.attempts : Int) < t.maxAttempts) ∧
  (∀ x ∈ s.tasks, x.2.status.terminal = true →
    (x.2.attempts : Int) ≤ x.2.maxAttempts)

/-- An external stimulus is well-formed when any explicitly supplied
`maxAttempts` is non-negative. -/
def Op.okAdd : Op → Bool
  | .add input _ => input.okMax
  | .cycle _ _ => true

/-- A trace whose every enqueue supplies an absent or non-negative
`maxAttempts`. -/
def OkTrace (trace : List Op) : Prop := ∀ op ∈ trace, op.okAdd = true

lemma invAttempts_addTask (s : SystemState) (input : TaskInput) (now : Nat)
    (h : InvAttempts s) (hok : input.okMax = true) :
    InvAttempts (addTask s input now).2 := by
  constructor
  · intro u hu
    have hu' : u ∈ s.queue ++ [(addTask s input now).1] :=
      (sortQueue_perm _).subset hu
    rcases List.mem_append.mp hu' with h1 | h1
    · exact h.1 u h1
    · have heq : u = (addTask s input now).1 := by simpa using h1
      subst heq
      refine ⟨rfl, ?_⟩
      have hpos := okMax_maxAttempts_pos input hok
      show ((0 : Nat) : Int) < orDefaultInt input.maxAttempts 3
      simpa using hpos
  · intro x hx hterm
    rcases mem_setTask x hx with h1 | h1
    · rw [h1] at hterm
      simp [TaskStatus.terminal] at hterm
    · exact h.2 x h1 hterm

lemma invAttempts_processQueue (s : SystemState) (ops : Nat → Option String)
    (now : Nat) (h : InvAttempts s) :
    InvAttempts (processQueue s ops now) := by
  rcases hq : s.queue with _ | ⟨t, rest⟩
  · have hid : processQueue s ops now = s := by simp [processQueue, hq]
    rw [hid]
    exact h
  · by_cases hp : s.processing = true
    · have hid : processQueue s ops now = s := by simp [processQueue, hp]
      rw [hid]
      exact h
    · have hp' : s.processing = false := by
        revert hp; cases s.processing <;> simp
      rw [processQueue_cons s ops now t rest hp' hq]
      have hhead := h.1 t (by rw [hq]; exact List.mem_cons_self _ _)
      obtain ⟨ha, hm, hpri, hid2, hreq, hterm'⟩ :=
        processTask_spec s.esc s.breakers s.opIndex ops t now
      constructor
      · intro u hu
        by_cases hb :
            (processTask s.esc s.breakers s.opIndex ops t now).2.1 = true
        · simp only [hb, if_true] at hu
          have hu' : u ∈ rest ++
              [(processTask s.esc s.breakers s.opIndex ops t now).1] :=
            (sortQueue_perm _).subset hu
          rcases List.mem_append.mp hu' with h1 | h1
          · exact h.1 u (by rw [hq]; exact List.mem_cons_of_mem _ h1)
          · have heq :
                u = (processTask s.esc s.breakers s.opIndex ops t now).1 := by
              simpa using h1
            rw [heq]
            exact hreq hb
        · simp only [hb, if_false] at hu
          exact h.1 u (by rw [hq]; exact List.mem_cons_of_mem _ hu)
      · intro x hx hterm
        rcases mem_setTask x hx with h1 | h1
        · rw [h1, ha, hm]
          have := hhead.2
          push_cast
          omega
        · exact h.2 x h1 hterm

lemma invAttempts_run (trace : List Op) : ∀ s : SystemState,
    OkTrace trace → InvAttempts s → InvAttempts (run s trace) := by
  induction trace with
  | nil => intro s _ h; exact h
  | cons op rest ih =>
      intro s hok h
      have hop : op.okAdd = true := hok op (List.mem_cons_self _ _)
      have hrest : OkTrace rest := fun o ho => hok o (List.mem_cons_of_mem _ ho)
      refine ih (step s op) hrest ?_
      cases op with
      | add input now =>
          exact invAttempts_addTask s input now h
            (by simpa [Op.okAdd] using hop)
      | cycle ops now => exact invAttempts_processQueue s ops now h

/-! ## Claim C3: the attempts budget -/

/-- A task enqueued with a negative `maxAttempts` (which `|| 3` keeps,
being truthy) and failed once. -/
def cexTraceNeg : List Op :=
  [.add { maxAttempts := some (-1) } 0, .cycle failOps 0]

/-- C3 (corrected): the claim promises `attempts <= maxAttempts` in every
terminal state, for every task.  Enqueue a task with `maxAttempts = -1`
(stored as-is, see C9) and let its single cycle fail: the task ends
terminal (`Failed`) with `attempts = 1 > -1 = maxAttempts`. -/
theorem counterexample_C3 :
    (getTask (run initState cexTraceNeg) 0).map
        (fun t => (t.status.terminal,
          decide ((t.attempts : Int) ≤ t.maxAttempts))) =
      some (true, false) := by
  decide

/-- C3 (amended).  Each execution cycle increments `attempts` by exactly
one; a processed task is re-enqueued (status Pending) only when it failed
with `attempts < maxAttempts` and otherwise ends in a terminal status
(Completed, Failed or Escalated); and — provided every enqueue supplies an
absent or non-negative `maxAttempts`, so that every stored budget is
positive — `attempts <= maxAttempts` holds for every terminal task of every
reachable state. -/
theorem claim_C3 :
    (∀ (esc : EscState) (cbs : List (Nat × Breaker)) (k : Nat)
        (ops : Nat → Option String) (t : Task) (now : Nat),
        (processTask esc cbs k ops t now).1.attempts = t.attempts + 1 ∧
        ((processTask esc cbs k ops t now).2.1 = true →
          (processTask esc cbs k ops t now).1.status = .PENDING ∧
          ((processTask esc cbs k ops t now).1.attempts : Int) <
            (processTask esc cbs k ops t now).1.maxAttempts) ∧
        ((processTask esc cbs k ops t now).2.1 = false →
          (processTask esc cbs k ops t now).1.status.terminal = true)) ∧
    (∀ trace : List Op, OkTrace trace →
        ∀ (taskId : Nat) (t : Task),
          getTask (run initState trace) taskId = some t →
          t.status.terminal = true → (t.attempts : Int) ≤ t.maxAttempts) := by
  constructor
  · intro esc cbs k ops t now
    obtain ⟨ha, _, _, _, hreq, hterm⟩ := processTask_spec esc cbs k ops t now
    exact ⟨ha, hreq, hterm⟩
  · intro trace hok taskId t hget hterm
    have hinit : InvAttempts initState := by
      constructor
      · intro u hu
        simp [initState] at hu
      · intro x hx
        simp [initState] at hx
    have hinv := invAttempts_run trace initState hok hinit
    exact hinv.2 (taskId, t) (lookupTask_mem hget) hterm

/-- A task with budget 1 whose single cycle fails, ending terminal. -/
def witTrace3 : List Op := [.add { maxAttempts := some 1 } 0, .cycle failOps 0]

/-- The stored record after `witTrace3`: generic task, one attempt, budget
1, failed with the operation's error. -/
def witTask3 : Task :=
  { id := 0, type := "generic", status := .FAILED, priority := 5,
    attempts := 1, maxAttempts := 1, createdAt := 0, updatedAt := 0,
    error := some "network error", metadata := [] }

/-- Witness for C3: the terminal task produced by `witTrace3` satisfies the
budget bound. -/
theorem claim_C3_witness : (witTask3.attempts : Int) ≤ witTask3.maxAttempts :=
  claim_C3.2 witTrace3 (by unfold OkTrace; decide) 0 witTask3 (by decide)
    (by decide)

/-! ## Claim C4: the failure scenarios -/

/-- A network-class task with budget 3 driven through three failing
cycles. -/
def cexTraceA : List Op :=
  [.add { type := some "NETWORK_ERROR", maxAttempts := some 3 } 0,
   .cycle failOps 0, .cycle failOps 0, .cycle failOps 0]

/-- A network-class task with budget 11 driven through eleven failing
cycles (threshold 5, so the final classification is HumanIntervention). -/
def traceB11 : List Op :=
  .add { type := some "NETWORK_ERROR", maxAttempts := some 11 } 0 ::
    List.replicate 11 (.cycle failOps 0)

/-- C4 (corrected): the claim asserts that in the `maxAttempts = 3`
scenario "escalate was invoked with the count-appropriate classification
level (Error)".  `escalate` appends an event to the history on every
invocation and nothing ever removes events, yet after the three failing
cycles the history is empty: the source invokes `escalate` only when the
classification is HumanIntervention (TaskQueue.ts lines 102-110), so for
the Error classification at failure count 3 it is never called, although
the task does end `Failed` with its error recorded. -/
theorem counterexample_C4 :
    (getTask (run initState cexTraceA) 0).map (fun t => (t.status, t.error)) =
      some (.FAILED, some "network error") ∧
    classifyLevel 5 3 = .ERROR ∧
    (run initState cexTraceA).esc.escalationHistory = [] := by
  decide

/-- C4 (amended).  With `maxAttempts = 3` and a network-class operation
failing every time: after 3 cycles the task is `Failed` with its error
populated, the failure count 3 is recorded and classifies as Error, but no
escalation event is produced — `escalate` is invoked only when the
classification reaches HumanIntervention.  With `maxAttempts = 11` and
threshold 5: after 11 cycles the classification is HumanIntervention, the
final status is `Escalated`, and a queryable escalation event is
produced. -/
theorem claim_C4 :
    (getTask (run initState cexTraceA) 0).map (fun t => (t.status, t.error)) =
      some (.FAILED, some "network error") ∧
    (run initState cexTraceA).esc.taskFailureCounts = [(0, 3)] ∧
    classifyLevel 5 3 = .ERROR ∧
    (run initState cexTraceA).esc.escalationHistory = [] ∧
    (getTask (run initState traceB11) 0).map (fun t => (t.status, t.attempts)) =
      some (.ESCALATED, 11) ∧
    classifyLevel 5 11 = .HUMAN_INTERVENTION ∧
    (run initState traceB11).esc.escalationHistory.map
        (fun e => (e.taskId, e.level, e.message)) =
      [(0, .HUMAN_INTERVENTION, "Task failed after 11 attempts")] ∧
    getEscalationHistory (run initState traceB11).esc 100 =
      (run initState traceB11).esc.escalationHistory := by
  decide

end Factrade
